import Mathlib

/-!
Shallow embedding of the `log` package (src/log/log.go, src/log/options.go),
a thin facade over the zap structured-logging library and the lumberjack
file-rotation library.  External collaborators (zapcore level parsing, the
path/filepath helpers, fmt.Sprintf, context.Context value lookup) are modelled
faithfully at the granularity the package exercises.
-/

namespace Log

/-! ### Levels (zapcore.Level; src/log/log.go also mirrors these constants) -/

inductive LogLevel
  | DebugLevel
  | InfoLevel
  | WarnLevel
  | ErrorLevel
  | DPanicLevel
  | PanicLevel
  | FatalLevel
deriving DecidableEq, Repr

/-- zapcore levels as integers: Debug = -1, Info = 0, ..., Fatal = 5
(src/log/log.go declares the same iota-1 numbering). -/
def levelInt : LogLevel → Int
  | .DebugLevel => -1
  | .InfoLevel => 0
  | .WarnLevel => 1
  | .ErrorLevel => 2
  | .DPanicLevel => 3
  | .PanicLevel => 4
  | .FatalLevel => 5

/-- zapcore.Level.String for the tokens this package uses. -/
def levelString : LogLevel → String
  | .DebugLevel => "debug"
  | .InfoLevel => "info"
  | .WarnLevel => "warn"
  | .ErrorLevel => "error"
  | .DPanicLevel => "dpanic"
  | .PanicLevel => "panic"
  | .FatalLevel => "fatal"

/-- One pass of zapcore.Level.unmarshalText: the exact token table of zapcore
(lower- and upper-case spellings; the empty string parses as info). -/
def levelOfText : String → Option LogLevel
  | "debug" => some .DebugLevel
  | "DEBUG" => some .DebugLevel
  | "info" => some .InfoLevel
  | "INFO" => some .InfoLevel
  | "" => some .InfoLevel
  | "warn" => some .WarnLevel
  | "WARN" => some .WarnLevel
  | "error" => some .ErrorLevel
  | "ERROR" => some .ErrorLevel
  | "dpanic" => some .DPanicLevel
  | "DPANIC" => some .DPanicLevel
  | "panic" => some .PanicLevel
  | "PANIC" => some .PanicLevel
  | "fatal" => some .FatalLevel
  | "FATAL" => some .FatalLevel
  | _ => none

/-- zapcore.Level.UnmarshalText: try the token as written, then lower-cased;
`none` models the "unrecognized level" error. -/
def levelUnmarshalText (s : String) : Option LogLevel :=
  match levelOfText s with
  | some l => some l
  | none => levelOfText s.toLower

/-! ### path/filepath collaborator (unix rules), used by getLogWriter and
createDirIfNotExists -/

/-- Split a character list on the path separator. -/
def splitSlash : List Char → List (List Char)
  | [] => [[]]
  | '/' :: rest => [] :: splitSlash rest
  | c :: rest =>
    match splitSlash rest with
    | [] => [[c]]
    | g :: gs => (c :: g) :: gs

/-- Join components with the path separator. -/
def joinSlash : List (List Char) → List Char
  | [] => []
  | [g] => g
  | g :: gs => g ++ '/' :: joinSlash gs

/-- filepath.Clean for unix paths: drop empty and "." components, resolve ".."
against preceding components (absolute paths discard leading ".."), empty
result becomes ".". -/
def cleanPath (path : String) : String :=
  if path = "" then "."
  else
    let cs := path.data
    let rooted := cs.head? = some '/'
    let comps := (splitSlash cs).filter (fun g => !(g.isEmpty || g == ['.']))
    let out := comps.foldl (fun acc g =>
      if g = ['.', '.'] then
        if rooted then acc.dropLast
        else
          match acc.getLast? with
          | some l => if l = ['.', '.'] then acc ++ [g] else acc.dropLast
          | none => acc ++ [g]
      else acc ++ [g]) ([] : List (List Char))
    let s := joinSlash out
    if rooted then String.mk ('/' :: s)
    else if s.isEmpty then "." else String.mk s

/-- filepath.Dir for unix paths: everything up to and including the final
separator, cleaned; "." when there is no separator. -/
def dirPath (path : String) : String :=
  let pre := (path.data.reverse.dropWhile (fun c => c != '/')).reverse
  cleanPath (String.mk pre)

/-- filepath.Base for unix paths: strip trailing separators, keep the last
component; "." for the empty path, "/" when nothing remains. -/
def basePath (path : String) : String :=
  if path = "" then "."
  else
    let stripped := (path.data.reverse.dropWhile (fun c => c == '/')).reverse
    let name := (stripped.reverse.takeWhile (fun c => c != '/')).reverse
    if name.isEmpty then "/" else String.mk name

/-! ### Encoders and sinks (src/log/options.go) -/

/-- var logFilePath = "./app.log" (src/log/options.go). -/
def logFilePath : String := "./app.log"

/-- The scalar encoder settings getEncoder fixes on top of
zap.NewProductionEncoderConfig (src/log/options.go). -/
structure EncoderConfig where
  timeKey : String
  localTimeFormat : String
  durationAsMillis : Bool
  capitalLevel : Bool
  shortCaller : Bool
deriving DecidableEq, Repr

inductive Encoder
  | jsonEnc (cfg : EncoderConfig)
  | consoleEnc (devConfig : Bool)
deriving DecidableEq, Repr

/-- Options (src/log/options.go). -/
structure Options where
  DisableCaller : Bool
  DisableStacktrace : Bool
  Level : String
  Format : String
  OutputPaths : List String
  Maxsize : Int
  MaxBackup : Int
  MaxAge : Int
  LocalTime : Bool
  Compress : Bool
  /-- Modelled from the spec: the caller-frame-skip count of Options
  ("an internal caller-frame-skip count", "Default skip = 1; override allowed
  via Options").  NewLogger in src/log/log.go reads opts.CallerSkip, but the
  Options declaration in src/log/options.go does not list the field; this
  field supplies the missing declaration, zero-valued by default. -/
  CallerSkip : Int := 0
deriving DecidableEq, Repr

/-- NewOptions (src/log/options.go): production defaults. -/
def NewOptions : Options :=
  { DisableCaller := false
    DisableStacktrace := false
    Level := levelString .InfoLevel
    Format := "console"
    OutputPaths := [logFilePath]
    Maxsize := 100
    MaxBackup := 30
    MaxAge := 7
    LocalTime := true
    Compress := true }

/-- getEncoder (src/log/options.go): always a JSON encoder over the customized
production config.  options.go declares it without parameters while the call
site in src/log/log.go passes opts; the body reads nothing from opts either
way, so the model takes the argument the call site supplies and ignores it. -/
def getEncoder (_opts : Options) : Encoder :=
  .jsonEnc
    { timeKey := "timestamp"
      localTimeFormat := "2006-01-02 15:04:05.000"
      durationAsMillis := true
      capitalLevel := true
      shortCaller := true }

/-- The lumberjack.Logger configuration getLogWriter builds
(src/log/options.go). -/
structure LumberjackConf where
  filename : String
  maxSize : Int
  maxAge : Int
  maxBackups : Int
  localTime : Bool
  compress : Bool
deriving DecidableEq, Repr

inductive Sink
  | rotatingFile (c : LumberjackConf)
  | stdout
deriving DecidableEq, Repr

def sinkFile : Sink → Option LumberjackConf
  | .rotatingFile c => some c
  | .stdout => none

/-- getLogWriter (src/log/options.go): zero-value arguments are replaced by
defaults, then a lumberjack sink is built with LocalTime hardcoded true and
Compress hardcoded false. -/
def getLogWriter (filename : String) (maxsize maxBackup maxAge : Int) : Sink :=
  let filename := if filename.length = 0 then
      cleanPath (dirPath logFilePath) ++ "/" ++ basePath logFilePath
    else filename
  let maxsize := if maxsize = 0 then 100 * 1024 * 1024 else maxsize
  let maxBackup := if maxBackup = 0 then 30 else maxBackup
  let maxAge := if maxAge = 0 then 7 else maxAge
  .rotatingFile
    { filename := filename
      maxSize := maxsize
      maxAge := maxAge
      maxBackups := maxBackup
      localTime := true
      compress := false }

/-! ### Filesystem collaborator and createDirIfNotExists (src/log/options.go) -/

/-- Outcome of os.Stat on a directory path. -/
inductive StatResult
  | found
  | notExist
  | statErr (msg : String)
deriving DecidableEq, Repr

/-- The filesystem as the two calls the package makes observe it:
os.Stat on a directory, os.MkdirAll on a directory. -/
structure Fs where
  stat : String → StatResult
  mkdirAll : String → Except String Unit

/-- createDirIfNotExists (src/log/options.go): when os.Stat reports the parent
directory as not existing, call os.MkdirAll and return its error if any; in
every other case (directory present, or a different Stat error) return nil. -/
def createDirIfNotExists (fs : Fs) (lfp : String) : Except String Unit :=
  let dir := dirPath lfp
  match fs.stat dir with
  | .notExist =>
    match fs.mkdirAll dir with
    | .error e => .error e
    | .ok _ => .ok ()
  | _ => .ok ()

/-! ### Logger construction (src/log/log.go NewLogger) -/

/-- A zapcore.Core: encoder, write syncer, level enabler. -/
structure Core where
  encoder : Encoder
  sink : Sink
  level : LogLevel
deriving DecidableEq, Repr

/-- zapcore level enablers admit a record whose level is at or above the
core's configured level. -/
def coreEnabled (c : Core) (lv : LogLevel) : Bool :=
  levelInt c.level ≤ levelInt lv

def isConsoleCore (c : Core) : Bool := c.sink == Sink.stdout

def isFileCore (c : Core) : Bool := (sinkFile c.sink).isSome

/-- The observable configuration of the zap.Logger NewLogger builds. -/
structure LoggerConf where
  cores : List Core
  callerEnabled : Bool
  callerSkip : Int
  redirectStdLog : Bool
deriving DecidableEq, Repr

/-- A Go call that either returns normally or panics.  NewLogger's signature
has no error result, so the model has no error-return constructor. -/
inductive GoResult (α : Type)
  | ok (a : α)
  | panicked (msg : String)
deriving DecidableEq, Repr

/-- The loop body of NewLogger over opts.OutputPaths (src/log/log.go):
for each file, panic if createDirIfNotExists fails, otherwise build a core
from getLogWriter, getEncoder and the parsed level. -/
def buildFileCores (fs : Fs) (opts : Options) (zapLevel : LogLevel) :
    List String → GoResult (List Core)
  | [] => .ok []
  | file :: rest =>
    match createDirIfNotExists fs file with
    | .error e => .panicked e
    | .ok _ =>
      let writeSyncer := getLogWriter file opts.Maxsize opts.MaxBackup opts.MaxAge
      let encoder := getEncoder opts
      let fileCore : Core := { encoder := encoder, sink := writeSyncer, level := zapLevel }
      match buildFileCores fs opts zapLevel rest with
      | .panicked e => .panicked e
      | .ok cs => .ok (fileCore :: cs)

/-- NewLogger (src/log/log.go): nil opts replaced by NewOptions; the level
token parsed with fallback to info; one core per output path plus a console
core fixed at debug level; caller capture always on, with skip 1 unless
opts.CallerSkip is positive; standard-library logging redirected. -/
def NewLogger (optsIn : Option Options) (fs : Fs) : GoResult LoggerConf :=
  let opts := optsIn.getD NewOptions
  let zapLevel := (levelUnmarshalText opts.Level).getD .InfoLevel
  match buildFileCores fs opts zapLevel opts.OutputPaths with
  | .panicked e => .panicked e
  | .ok fileCores =>
    let consoleCore : Core :=
      { encoder := .consoleEnc true, sink := .stdout, level := .DebugLevel }
    let cores := fileCores ++ [consoleCore]
    let skip : Int := if opts.CallerSkip > 0 then opts.CallerSkip else 1
    .ok
      { cores := cores
        callerEnabled := true
        callerSkip := skip
        redirectStdLog := true }

/-! ### Init and the global registry (src/log/log.go) -/

/-- The observable events of Init's body, in program order:
mu.Lock(); defer mu.Unlock(); std = NewLogger(opts). -/
inductive InitEvent
  | lockAcq
  | constructLogger
  | storeStd
  | lockRel
deriving DecidableEq, Repr

/-- Init's event trace (src/log/log.go): the mutex is taken, NewLogger runs,
the result is stored into std, and the deferred unlock fires at return. -/
def initTrace : List InitEvent := [.lockAcq, .constructLogger, .storeStd, .lockRel]

/-- The events occurring strictly between the lock acquisition and the lock
release of a trace: the critical section. -/
def criticalSection (t : List InitEvent) : List InitEvent :=
  ((t.dropWhile (fun e => e != InitEvent.lockAcq)).drop 1).takeWhile
    (fun e => e != InitEvent.lockRel)

/-- Init's effect on the std slot (src/log/log.go): the new value of std.
When NewLogger panics, Init panics and the slot keeps its old value. -/
def InitModel (_std0 : LoggerConf) (opts : Option Options) (fs : Fs) :
    GoResult LoggerConf :=
  match NewLogger opts fs with
  | .ok l => .ok l
  | .panicked e => .panicked e

/-! ### Context correlation (src/log/log.go: RequestId, RequestIdKey, C,
clone) over an explicit heap, so that mutation of the base is observable -/

/-- Values stored in contexts and in structured fields (interface values). -/
inductive GoVal
  | str (s : String)
  | int (n : Int)
  | boolV (b : Bool)
deriving DecidableEq, Repr

/-- context.Context keys compare by dynamic type and value: the package's
RequestIdKey struct key is distinct from every string key. -/
inductive CtxKey
  | requestIdKeyTy
  | strKey (s : String)
  | otherKey (n : Nat)
deriving DecidableEq, Repr

/-- A context as its chain of WithValue pairs, most recent first. -/
abbrev Ctx := List (CtxKey × GoVal)

/-- context.Context.Value: the most recently attached value for the key. -/
def ctxValue : Ctx → CtxKey → Option GoVal
  | [], _ => none
  | (k', v) :: rest, k => if k' = k then some v else ctxValue rest k

/-- var RequestId (src/log/log.go): the field name attached for correlation. -/
def RequestId : String := "x-request-id"

/-- The state of one zap.Logger: its accumulated With-fields. -/
structure ZapState where
  fields : List (String × GoVal)
deriving DecidableEq, Repr

/-- The heap: zap.Logger cells and zapLogger cells; a zapLogger holds the
index of its z pointer into zapHeap.  Pointers are list indices. -/
structure Mem where
  zapHeap : List ZapState
  zlHeap : List Nat
deriving DecidableEq, Repr

/-- zap.Logger.With (zap collaborator): allocates a clone of the pointed-to
logger with the field appended, returning the new cell's index. -/
def zapWith (m : Mem) (zp : Nat) (fld : String × GoVal) : Mem × Nat :=
  let old := m.zapHeap.getD zp ⟨[]⟩
  ({ m with zapHeap := m.zapHeap ++ [⟨old.fields ++ [fld]⟩] }, m.zapHeap.length)

/-- clone (src/log/log.go): lc := *l — allocate a new zapLogger cell holding
the same z pointer as the base. -/
def clone (m : Mem) (lp : Nat) : Mem × Nat :=
  ({ m with zlHeap := m.zlHeap ++ [m.zlHeap.getD lp 0] }, m.zlHeap.length)

/-- The method C (src/log/log.go): clone the base; when the context carries a
value under RequestIdKey, replace the clone's z with z.With(RequestId, value);
return the clone. -/
def C (m : Mem) (lp : Nat) (ctx : Ctx) : Mem × Nat :=
  let r := clone m lp
  match ctxValue ctx CtxKey.requestIdKeyTy with
  | some v =>
    let m1 := r.1
    let zr := zapWith m1 (m1.zlHeap.getD r.2 0) (RequestId, v)
    ({ zr.1 with zlHeap := zr.1.zlHeap.set r.2 zr.2 }, r.2)
  | none => r

/-- The fields of the zap.Logger a zapLogger cell points to. -/
def loggerFields (m : Mem) (lp : Nat) : List (String × GoVal) :=
  (m.zapHeap.getD (m.zlHeap.getD lp 0) ⟨[]⟩).fields

/-! ### Leveled writes and the format-with-context layer (src/log/log.go) -/

/-- A structured record as it reaches the cores. -/
structure Record where
  level : LogLevel
  msg : String
  fields : List (String × GoVal)
deriving DecidableEq, Repr

/-- l.z.Sugar().Xxxw: the record carries the call's message and key/value
pairs after the logger's accumulated With-fields. -/
def sugarWrite (m : Mem) (lp : Nat) (lv : LogLevel) (msg : String)
    (kvs : List (String × GoVal)) : Record :=
  { level := lv, msg := msg, fields := loggerFields m lp ++ kvs }

def Debugw (m : Mem) (lp : Nat) (msg : String) (kvs : List (String × GoVal)) : Record :=
  sugarWrite m lp .DebugLevel msg kvs

def Infow (m : Mem) (lp : Nat) (msg : String) (kvs : List (String × GoVal)) : Record :=
  sugarWrite m lp .InfoLevel msg kvs

def Warnw (m : Mem) (lp : Nat) (msg : String) (kvs : List (String × GoVal)) : Record :=
  sugarWrite m lp .WarnLevel msg kvs

def Errorw (m : Mem) (lp : Nat) (msg : String) (kvs : List (String × GoVal)) : Record :=
  sugarWrite m lp .ErrorLevel msg kvs

def Panicw (m : Mem) (lp : Nat) (msg : String) (kvs : List (String × GoVal)) : Record :=
  sugarWrite m lp .PanicLevel msg kvs

def Fatalw (m : Mem) (lp : Nat) (msg : String) (kvs : List (String × GoVal)) : Record :=
  sugarWrite m lp .FatalLevel msg kvs

/-- Rendering one fmt verb argument (fmt collaborator). -/
def goValString : GoVal → String
  | .str s => s
  | .int n => toString n
  | .boolV b => if b then "true" else "false"

/-- fmt.Sprintf scan (fmt collaborator) for the verbs %s, %d, %v and the
escape %%; a verb with no remaining argument renders the MISSING marker;
other verb characters pass through literally. -/
def sprintfAux : List Char → List GoVal → List Char
  | [], _ => []
  | '%' :: '%' :: rest, args => '%' :: sprintfAux rest args
  | '%' :: c :: rest, args =>
    if c = 's' ∨ c = 'd' ∨ c = 'v' then
      match args with
      | [] => '%' :: '!' :: c :: ("(MISSING)".data ++ sprintfAux rest [])
      | a :: as => (goValString a).data ++ sprintfAux rest as
    else '%' :: c :: sprintfAux rest args
  | c :: rest, args => c :: sprintfAux rest args

def sprintf (format : String) (args : List GoVal) : String :=
  String.mk (sprintfAux format.data args)

/-- DebugfWithContext (src/log/log.go): render the template, derive the
context-bound logger from std, emit through the structured call with no
key/value fields.  std is the (m, stdp) pair. -/
def DebugfWithContext (m : Mem) (stdp : Nat) (ctx : Ctx) (format : String)
    (args : List GoVal) : Mem × Record :=
  let msg := sprintf format args
  let r := C m stdp ctx
  (r.1, Debugw r.1 r.2 msg [])

/-- InfofWithContext (src/log/log.go). -/
def InfofWithContext (m : Mem) (stdp : Nat) (ctx : Ctx) (format : String)
    (args : List GoVal) : Mem × Record :=
  let msg := sprintf format args
  let r := C m stdp ctx
  (r.1, Infow r.1 r.2 msg [])

/-- WarnfWithContext (src/log/log.go). -/
def WarnfWithContext (m : Mem) (stdp : Nat) (ctx : Ctx) (format : String)
    (args : List GoVal) : Mem × Record :=
  let msg := sprintf format args
  let r := C m stdp ctx
  (r.1, Warnw r.1 r.2 msg [])

/-- ErrorfWithContext (src/log/log.go). -/
def ErrorfWithContext (m : Mem) (stdp : Nat) (ctx : Ctx) (format : String)
    (args : List GoVal) : Mem × Record :=
  let msg := sprintf format args
  let r := C m stdp ctx
  (r.1, Errorw r.1 r.2 msg [])

/-- PanicfWithContext (src/log/log.go). -/
def PanicfWithContext (m : Mem) (stdp : Nat) (ctx : Ctx) (format : String)
    (args : List GoVal) : Mem × Record :=
  let msg := sprintf format args
  let r := C m stdp ctx
  (r.1, Panicw r.1 r.2 msg [])

/-- FatalfWithContext (src/log/log.go). -/
def FatalfWithContext (m : Mem) (stdp : Nat) (ctx : Ctx) (format : String)
    (args : List GoVal) : Mem × Record :=
  let msg := sprintf format args
  let r := C m stdp ctx
  (r.1, Fatalw r.1 r.2 msg [])

/-- The spec's description of the format-with-context layer, stated on its own
for comparison: render the template with the positional arguments to a plain
string first, then invoke the structured call of the same level, with that
string as message and no key/value fields, on the context-bound logger C(ctx). -/
def specFormattedCall (lv : LogLevel) (m : Mem) (stdp : Nat) (ctx : Ctx)
    (format : String) (args : List GoVal) : Mem × Record :=
  let msg := sprintf format args
  let r := C m stdp ctx
  (r.1, sugarWrite r.1 r.2 lv msg [])

/-! ### Derived predicates and concrete inputs used by the theorems below -/

/-- Agreement on every Options field except DisableCaller, DisableStacktrace,
Format, LocalTime and Compress. -/
def cosmeticAgree (o1 o2 : Options) : Prop :=
  o1.Level = o2.Level ∧ o1.OutputPaths = o2.OutputPaths ∧
  o1.Maxsize = o2.Maxsize ∧ o1.MaxBackup = o2.MaxBackup ∧
  o1.MaxAge = o2.MaxAge ∧ o1.CallerSkip = o2.CallerSkip

/-- A filesystem on which every parent directory already exists. -/
def fsOkW : Fs := { stat := fun _ => .found, mkdirAll := fun _ => .ok () }

/-- A filesystem on which the parent directory is missing and MkdirAll is
denied (no write permission on the enclosing directory). -/
def fsFailW : Fs :=
  { stat := fun _ => .notExist, mkdirAll := fun _ => .error "permission denied" }

/-- The configuration NewLogger yields for NewOptions-shaped input with the
single default output path. -/
def witConf (lvl : LogLevel) (skip : Int) : LoggerConf :=
  { cores := [{ encoder := getEncoder NewOptions
                sink := getLogWriter logFilePath 100 30 7
                level := lvl },
              { encoder := .consoleEnc true, sink := .stdout, level := .DebugLevel }]
    callerEnabled := true
    callerSkip := skip
    redirectStdLog := true }

def emptyConf : LoggerConf :=
  { cores := [], callerEnabled := false, callerSkip := 0, redirectStdLog := false }

def c2opts : Options := { NewOptions with Level := "warn" }

def c8opts : Options := { NewOptions with CallerSkip := 3 }

def c9opts2 : Options :=
  { NewOptions with DisableCaller := true, DisableStacktrace := true,
                    Format := "json", LocalTime := false, Compress := false }

/-- One zapLogger cell pointing at one zap.Logger with no fields. -/
def memW : Mem := { zapHeap := [⟨[]⟩], zlHeap := [0] }

/-- A context whose caller stored the token under the string "x-request-id"
used directly as the context key. -/
def ctxStrKeyW : Ctx := [(.strKey "x-request-id", .str "abc")]

/-- A context carrying a token under the package's RequestIdKey struct key. -/
def ctxTypedW : Ctx := [(.requestIdKeyTy, .str "req-1")]

def ctxTypedW2 : Ctx := [(.requestIdKeyTy, .str "req-2")]

/-! ### List lemmas for the append-only heaps -/

theorem getD_append_lt {α : Type} (l l' : List α) (i : Nat) (d : α)
    (h : i < l.length) : (l ++ l').getD i d = l.getD i d := by
  induction l generalizing i with
  | nil => simp at h
  | cons a t ih =>
    cases i with
    | zero => rfl
    | succ n => exact ih n (Nat.lt_of_succ_lt_succ h)

theorem getD_append_len {α : Type} (l : List α) (x d : α) :
    (l ++ [x]).getD l.length d = x := by
  induction l with
  | nil => rfl
  | cons a t ih => exact ih

theorem set_append_len {α : Type} (l : List α) (x y : α) :
    (l ++ [x]).set l.length y = l ++ [y] := by
  induction l with
  | nil => rfl
  | cons a t ih => simp [List.set, ih]

/-! ### Computation lemmas for C and the construction loop -/

theorem C_some (m : Mem) (lp : Nat) (ctx : Ctx) (v : GoVal)
    (h : ctxValue ctx CtxKey.requestIdKeyTy = some v) :
    C m lp ctx =
      ({ zapHeap := m.zapHeap ++
            [⟨(m.zapHeap.getD (m.zlHeap.getD lp 0) ⟨[]⟩).fields ++ [(RequestId, v)]⟩],
         zlHeap := m.zlHeap ++ [m.zapHeap.length] }, m.zlHeap.length) := by
  simp [C, clone, zapWith, h, getD_append_len, set_append_len]

theorem C_none (m : Mem) (lp : Nat) (ctx : Ctx)
    (h : ctxValue ctx CtxKey.requestIdKeyTy = none) :
    C m lp ctx =
      ({ m with zlHeap := m.zlHeap ++ [m.zlHeap.getD lp 0] }, m.zlHeap.length) := by
  simp [C, clone, h]

theorem C_snd (m : Mem) (lp : Nat) (ctx : Ctx) :
    (C m lp ctx).2 = m.zlHeap.length := by
  cases hc : ctxValue ctx CtxKey.requestIdKeyTy with
  | some v => rw [C_some m lp ctx v hc]
  | none => rw [C_none m lp ctx hc]

theorem C_zl_getD_lt (m : Mem) (lp : Nat) (ctx : Ctx) (i : Nat) (d : Nat)
    (h : i < m.zlHeap.length) :
    (C m lp ctx).1.zlHeap.getD i d = m.zlHeap.getD i d := by
  cases hc : ctxValue ctx CtxKey.requestIdKeyTy with
  | some v => rw [C_some m lp ctx v hc]; exact getD_append_lt _ _ _ _ h
  | none => rw [C_none m lp ctx hc]; exact getD_append_lt _ _ _ _ h

theorem C_zap_getD_lt (m : Mem) (lp : Nat) (ctx : Ctx) (j : Nat) (d : ZapState)
    (h : j < m.zapHeap.length) :
    (C m lp ctx).1.zapHeap.getD j d = m.zapHeap.getD j d := by
  cases hc : ctxValue ctx CtxKey.requestIdKeyTy with
  | some v => rw [C_some m lp ctx v hc]; exact getD_append_lt _ _ _ _ h
  | none => rw [C_none m lp ctx hc]

theorem loggerFields_C_frame (m : Mem) (lp : Nat) (ctx : Ctx) (p : Nat)
    (hp : p < m.zlHeap.length) (hz : m.zlHeap.getD p 0 < m.zapHeap.length) :
    loggerFields (C m lp ctx).1 p = loggerFields m p := by
  unfold loggerFields
  rw [C_zl_getD_lt m lp ctx p 0 hp, C_zap_getD_lt m lp ctx _ _ hz]

theorem lf_C_some (m : Mem) (lp : Nat) (ctx : Ctx) (v : GoVal)
    (h : ctxValue ctx CtxKey.requestIdKeyTy = some v) :
    loggerFields (C m lp ctx).1 (C m lp ctx).2 =
      loggerFields m lp ++ [(RequestId, v)] := by
  rw [C_some m lp ctx v h]
  simp only [loggerFields, getD_append_len]

theorem lf_C_none (m : Mem) (lp : Nat) (ctx : Ctx)
    (h : ctxValue ctx CtxKey.requestIdKeyTy = none) :
    loggerFields (C m lp ctx).1 (C m lp ctx).2 = loggerFields m lp ∧
    (C m lp ctx).1.zlHeap.getD (C m lp ctx).2 0 = m.zlHeap.getD lp 0 := by
  rw [C_none m lp ctx h]
  simp only [loggerFields, getD_append_len]
  exact ⟨trivial, trivial⟩

theorem C_some_zl_new (m : Mem) (lp : Nat) (ctx : Ctx) (v : GoVal)
    (h : ctxValue ctx CtxKey.requestIdKeyTy = some v) :
    (C m lp ctx).1.zlHeap.getD m.zlHeap.length 0 = m.zapHeap.length ∧
    (C m lp ctx).1.zlHeap.length = m.zlHeap.length + 1 ∧
    (C m lp ctx).1.zapHeap.length = m.zapHeap.length + 1 := by
  rw [C_some m lp ctx v h]
  refine ⟨getD_append_len _ _ _, by simp, by simp⟩

theorem buildFileCores_mem (fs : Fs) (opts : Options) (zl : LogLevel) :
    ∀ (files : List String) (cs : List Core),
      buildFileCores fs opts zl files = .ok cs →
      ∀ c ∈ cs, c.encoder = getEncoder opts ∧ c.level = zl ∧
        ∃ f ∈ files, c.sink = getLogWriter f opts.Maxsize opts.MaxBackup opts.MaxAge := by
  intro files
  induction files with
  | nil =>
    intro cs h c hc
    simp [buildFileCores] at h
    subst h
    simp at hc
  | cons file rest ih =>
    intro cs h c hc
    unfold buildFileCores at h
    cases hcd : createDirIfNotExists fs file with
    | error e => rw [hcd] at h; exact absurd h (by simp)
    | ok u =>
      rw [hcd] at h
      cases hrest : buildFileCores fs opts zl rest with
      | panicked e => rw [hrest] at h; exact absurd h (by simp)
      | ok cs' =>
        rw [hrest] at h
        simp at h
        subst h
        rcases List.mem_cons.mp hc with hc1 | hc2
        · subst hc1
          refine ⟨rfl, rfl, file, by simp, rfl⟩
        · rcases ih cs' hrest c hc2 with ⟨he, hl, f, hf, hs⟩
          exact ⟨he, hl, f, by simp [hf], hs⟩

theorem buildFileCores_ok_of_dirs (fs : Fs) (opts : Options) (zl : LogLevel) :
    ∀ (files : List String),
      (∀ f ∈ files, createDirIfNotExists fs f = .ok ()) →
      ∃ cs, buildFileCores fs opts zl files = .ok cs := by
  intro files
  induction files with
  | nil => intro _; exact ⟨[], rfl⟩
  | cons file rest ih =>
    intro h
    rcases ih (fun f hf => h f (by simp [hf])) with ⟨cs', hcs'⟩
    refine ⟨{ encoder := getEncoder opts,
              sink := getLogWriter file opts.Maxsize opts.MaxBackup opts.MaxAge,
              level := zl } :: cs', ?_⟩
    unfold buildFileCores
    rw [h file (by simp), hcs']

theorem buildFileCores_panics_of_fail (fs : Fs) (opts : Options) (zl : LogLevel) :
    ∀ (files : List String) (f : String) (e : String), f ∈ files →
      createDirIfNotExists fs f = .error e →
      ∃ e', buildFileCores fs opts zl files = .panicked e' := by
  intro files
  induction files with
  | nil => intro f e hf; simp at hf
  | cons file rest ih =>
    intro f e hf hfail
    rcases List.mem_cons.mp hf with h1 | h2
    · subst h1
      exact ⟨e, by unfold buildFileCores; rw [hfail]⟩
    · cases hcd : createDirIfNotExists fs file with
      | error e0 => exact ⟨e0, by unfold buildFileCores; rw [hcd]⟩
      | ok u =>
        rcases ih f e h2 hfail with ⟨e', he'⟩
        cases u
        exact ⟨e', by unfold buildFileCores; rw [hcd, he']⟩

theorem buildFileCores_congr (fs : Fs) (o1 o2 : Options) (zl : LogLevel)
    (hms : o1.Maxsize = o2.Maxsize) (hmb : o1.MaxBackup = o2.MaxBackup)
    (hma : o1.MaxAge = o2.MaxAge) :
    ∀ files, buildFileCores fs o1 zl files = buildFileCores fs o2 zl files := by
  intro files
  induction files with
  | nil => rfl
  | cons file rest ih =>
    unfold buildFileCores
    rw [ih, hms, hmb, hma]
    rfl

theorem NewLogger_congr (fs : Fs) (o1 o2 : Options)
    (hop : o1.OutputPaths = o2.OutputPaths)
    (hms : o1.Maxsize = o2.Maxsize) (hmb : o1.MaxBackup = o2.MaxBackup)
    (hma : o1.MaxAge = o2.MaxAge) (hcs : o1.CallerSkip = o2.CallerSkip)
    (hlvl : (levelUnmarshalText o1.Level).getD .InfoLevel =
            (levelUnmarshalText o2.Level).getD .InfoLevel) :
    NewLogger (some o1) fs = NewLogger (some o2) fs := by
  simp only [NewLogger, Option.getD_some]
  rw [hlvl, hop, hcs, buildFileCores_congr fs o1 o2 _ hms hmb hma]

/-! ### Claim theorems -/

/-- C1: For every Options value (including nil), NewLogger attaches exactly one
console sink, that console sink is configured at debug level regardless of the
configured minimum level, and it accepts every record at or above debug level. -/
theorem console_sink_unique_debug (optsIn : Option Options) (fs : Fs)
    (conf : LoggerConf) (hok : NewLogger optsIn fs = .ok conf) :
    (conf.cores.filter isConsoleCore).length = 1 ∧
    ∀ c ∈ conf.cores, isConsoleCore c = true →
      c.level = .DebugLevel ∧
      ∀ lv, levelInt .DebugLevel ≤ levelInt lv → coreEnabled c lv = true := by
  simp only [NewLogger] at hok
  cases hbc : buildFileCores fs (optsIn.getD NewOptions)
      ((levelUnmarshalText (optsIn.getD NewOptions).Level).getD .InfoLevel)
      (optsIn.getD NewOptions).OutputPaths with
  | panicked e => rw [hbc] at hok; exact absurd hok (by simp)
  | ok fileCores =>
    rw [hbc] at hok
    simp only [GoResult.ok.injEq] at hok
    subst hok
    have hfile : ∀ c ∈ fileCores, isConsoleCore c = false := by
      intro c hc
      rcases buildFileCores_mem fs _ _ _ _ hbc c hc with ⟨_, _, f, _, hs⟩
      simp [isConsoleCore, hs, getLogWriter]
    constructor
    · simp only [List.filter_append]
      rw [List.filter_eq_nil_iff.mpr (by intro c hc; simp [hfile c hc])]
      simp [isConsoleCore]
    · intro c hc hcon
      rcases List.mem_append.mp hc with h1 | h2
      · rw [hfile c h1] at hcon; exact absurd hcon (by simp)
      · simp only [List.mem_singleton] at h2
        subst h2
        exact ⟨rfl, by intro lv _; cases lv <;> decide⟩

/-- C1 witness: on the default Options over a filesystem whose directories
exist, the constructed configuration has exactly one console core. -/
theorem console_sink_unique_debug_witness :
    ((witConf .InfoLevel 1).cores.filter isConsoleCore).length = 1 :=
  (console_sink_unique_debug (some NewOptions) fsOkW (witConf .InfoLevel 1)
    (by decide)).1

/-- C2: when the Level token parses, every file core of the constructed logger
carries exactly the parsed level; when it does not parse, NewLogger behaves
identically to construction with the token "info" (so construction does not
fail because of the token) and every file core carries info level. -/
theorem file_sink_level_parse_fallback :
    (∀ (opts : Options) (fs : Fs) (conf : LoggerConf) (l : LogLevel),
       levelUnmarshalText opts.Level = some l →
       NewLogger (some opts) fs = .ok conf →
       ∀ c ∈ conf.cores, isFileCore c = true → c.level = l) ∧
    (∀ (opts : Options) (fs : Fs),
       levelUnmarshalText opts.Level = none →
       NewLogger (some opts) fs =
         NewLogger (some { opts with Level := "info" }) fs) ∧
    (∀ (opts : Options) (fs : Fs) (conf : LoggerConf),
       levelUnmarshalText opts.Level = none →
       NewLogger (some opts) fs = .ok conf →
       ∀ c ∈ conf.cores, isFileCore c = true → c.level = .InfoLevel) := by
  have key : ∀ (opts : Options) (fs : Fs) (conf : LoggerConf) (l : LogLevel),
      (levelUnmarshalText opts.Level).getD .InfoLevel = l →
      NewLogger (some opts) fs = .ok conf →
      ∀ c ∈ conf.cores, isFileCore c = true → c.level = l := by
    intro opts fs conf l hl hok c hc hfc
    simp only [NewLogger, Option.getD_some] at hok
    rw [hl] at hok
    cases hbc : buildFileCores fs opts l opts.OutputPaths with
    | panicked e => rw [hbc] at hok; exact absurd hok (by simp)
    | ok fileCores =>
      rw [hbc] at hok
      simp only [GoResult.ok.injEq] at hok
      subst hok
      simp only at hc
      rcases List.mem_append.mp hc with h1 | h2
      · exact (buildFileCores_mem fs _ _ _ _ hbc c h1).2.1
      · simp only [List.mem_singleton] at h2
        subst h2
        simp [isFileCore, sinkFile] at hfc
  refine ⟨?_, ?_, ?_⟩
  · intro opts fs conf l hl hok
    exact key opts fs conf l (by rw [hl]; rfl) hok
  · intro opts fs h
    exact NewLogger_congr fs opts { opts with Level := "info" } rfl rfl rfl rfl rfl
      (by rw [h]; rfl)
  · intro opts fs conf h hok
    exact key opts fs conf .InfoLevel (by rw [h]; rfl) hok

/-- C2 witness: with Level set to "warn" the file core of the constructed
logger is at warn level. -/
theorem file_sink_level_parse_fallback_witness :
    ({ encoder := getEncoder NewOptions
       sink := getLogWriter logFilePath 100 30 7
       level := .WarnLevel } : Core).level = .WarnLevel :=
  (file_sink_level_parse_fallback).1 c2opts fsOkW (witConf .WarnLevel 1)
    .WarnLevel (by decide) (by decide) _ (by decide) (by decide)

/-- C3: for every output path whose parent directory is missing and whose
MkdirAll fails (for example for lack of write permission), NewLogger panics;
when every missing parent directory is created successfully, NewLogger returns
a logger; and in every case the outcome is a returned logger or a panic —
never a returned error value (GoResult has no error constructor, mirroring
NewLogger's error-free signature). -/
theorem output_dir_create_or_panicked (opts : Options) (fs : Fs) :
    (∀ p e, p ∈ opts.OutputPaths → fs.stat (dirPath p) = .notExist →
       fs.mkdirAll (dirPath p) = .error e →
       ∃ e', NewLogger (some opts) fs = .panicked e') ∧
    ((∀ p, p ∈ opts.OutputPaths → fs.stat (dirPath p) = .notExist →
       fs.mkdirAll (dirPath p) = .ok ()) →
       ∃ conf, NewLogger (some opts) fs = .ok conf) ∧
    ((∃ conf, NewLogger (some opts) fs = .ok conf) ∨
     (∃ e, NewLogger (some opts) fs = .panicked e)) := by
  refine ⟨?_, ?_, ?_⟩
  · intro p e hp hstat hmk
    have hfail : createDirIfNotExists fs p = .error e := by
      simp [createDirIfNotExists, hstat, hmk]
    rcases buildFileCores_panics_of_fail fs opts
        ((levelUnmarshalText opts.Level).getD .InfoLevel) opts.OutputPaths p e hp hfail
      with ⟨e', he'⟩
    refine ⟨e', ?_⟩
    simp only [NewLogger, Option.getD_some]
    rw [he']
  · intro h
    have hdirs : ∀ f ∈ opts.OutputPaths, createDirIfNotExists fs f = .ok () := by
      intro f hf
      cases hstat : fs.stat (dirPath f) with
      | notExist =>
        have := h f hf hstat
        simp [createDirIfNotExists, hstat, this]
      | found => simp [createDirIfNotExists, hstat]
      | statErr msg => simp [createDirIfNotExists, hstat]
    rcases buildFileCores_ok_of_dirs fs opts
        ((levelUnmarshalText opts.Level).getD .InfoLevel) opts.OutputPaths hdirs
      with ⟨cs, hcs⟩
    refine ⟨{ cores := cs ++ [{ encoder := .consoleEnc true, sink := .stdout, level := .DebugLevel }],
              callerEnabled := true,
              callerSkip := if opts.CallerSkip > 0 then opts.CallerSkip else 1,
              redirectStdLog := true }, ?_⟩
    simp only [NewLogger, Option.getD_some]
    rw [hcs]
  · cases hbc : buildFileCores fs opts
        ((levelUnmarshalText opts.Level).getD .InfoLevel) opts.OutputPaths with
    | panicked e =>
      right
      refine ⟨e, ?_⟩
      simp only [NewLogger, Option.getD_some]
      rw [hbc]
    | ok cs =>
      left
      refine ⟨{ cores := cs ++ [{ encoder := .consoleEnc true, sink := .stdout, level := .DebugLevel }],
                callerEnabled := true,
                callerSkip := if opts.CallerSkip > 0 then opts.CallerSkip else 1,
                redirectStdLog := true }, ?_⟩
      simp only [NewLogger, Option.getD_some]
      rw [hbc]

/-- C3 witness: on a filesystem where the default output path's parent is
missing and MkdirAll is denied, NewLogger panics with the denial error. -/
theorem output_dir_create_or_panicked_witness :
    NewLogger (some NewOptions) fsFailW = .panicked "permission denied" :=
  ((output_dir_create_or_panicked NewOptions fsFailW).1 "./app.log"
    "permission denied" (by decide) (by decide) rfl).elim
    (fun _ _ => by decide)

/-- C4 (amended): the well-known context key is the dedicated struct key
RequestIdKey, not the string "x-request-id"; when the context carries a value
under that struct key, C returns a derived logger whose fields are the base's
fields plus the token under the field name RequestId ("x-request-id"); when it
carries none, the derived logger keeps the base's fields and shares the base's
underlying zap.Logger pointer. -/
theorem context_key_typed_attach (m : Mem) (lp : Nat) (ctx : Ctx) :
    (∀ v, ctxValue ctx CtxKey.requestIdKeyTy = some v →
       loggerFields (C m lp ctx).1 (C m lp ctx).2 =
         loggerFields m lp ++ [(RequestId, v)]) ∧
    (ctxValue ctx CtxKey.requestIdKeyTy = none →
       loggerFields (C m lp ctx).1 (C m lp ctx).2 = loggerFields m lp ∧
       (C m lp ctx).1.zlHeap.getD (C m lp ctx).2 0 = m.zlHeap.getD lp 0) := by
  exact ⟨fun v h => lf_C_some m lp ctx v h, fun h => lf_C_none m lp ctx h⟩

/-- C4 witness: deriving through a context carrying "req-1" under the struct
key attaches the field ("x-request-id", "req-1"). -/
theorem context_key_typed_attach_witness :
    loggerFields (C memW 0 ctxTypedW).1 (C memW 0 ctxTypedW).2 =
      [(RequestId, .str "req-1")] := by
  have h := (context_key_typed_attach memW 0 ctxTypedW).1 (.str "req-1") (by decide)
  rw [h]
  decide

/-- C4 counterexample: a caller that stores the correlation token under the
context key "x-request-id" — the fixed string the claim names — gets a derived
logger with no field attached, sharing the base's zap.Logger pointer; so the
claimed string context key is not the key the code consults. -/
theorem context_key_string_counterexample :
    ctxValue ctxStrKeyW (CtxKey.strKey RequestId) = some (.str "abc") ∧
    loggerFields (C memW 0 ctxStrKeyW).1 (C memW 0 ctxStrKeyW).2 = [] ∧
    (C memW 0 ctxStrKeyW).1.zlHeap.getD (C memW 0 ctxStrKeyW).2 0 =
      memW.zlHeap.getD 0 0 := by decide

/-- C5 (amended): in Init the mutex is acquired before the Logger is
constructed and released only after the pointer replacement — so the critical
section contains the construction as well as the store; Init replaces the std
slot with exactly the newly constructed Logger, and its outcome is independent
of the previously active Logger, so it is safe to call repeatedly. -/
theorem init_replaces_std_under_lock :
    criticalSection initTrace = [.constructLogger, .storeStd] ∧
    (∀ (std0 : LoggerConf) (opts : Option Options) (fs : Fs) (l : LoggerConf),
       NewLogger opts fs = .ok l → InitModel std0 opts fs = .ok l) ∧
    (∀ (std0 std1 : LoggerConf) (opts : Option Options) (fs : Fs),
       InitModel std0 opts fs = InitModel std1 opts fs) := by
  refine ⟨by decide, ?_, ?_⟩
  · intro std0 opts fs l h
    simp [InitModel, h]
  · intro std0 std1 opts fs
    rfl

/-- C5 witness: replacing an arbitrary previous configuration by Init over
the default Options yields exactly the newly constructed configuration. -/
theorem init_replaces_std_under_lock_witness :
    InitModel emptyConf (some NewOptions) fsOkW = .ok (witConf .InfoLevel 1) :=
  (init_replaces_std_under_lock).2.1 emptyConf (some NewOptions) fsOkW
    (witConf .InfoLevel 1) (by decide)

/-- C5 counterexample: the Logger construction happens inside Init's critical
section, so the lock is not held only for the duration of the pointer
replacement. -/
theorem init_lock_spans_construction :
    InitEvent.constructLogger ∈ criticalSection initTrace ∧
    criticalSection initTrace ≠ [.storeStd] := by decide

/-- C6: C is copy-on-derive — after a derivation the base cell still holds the
same zap.Logger pointer with the same fields; and two derivations from the
same base under contexts carrying tokens a and b yield independent loggers
whose fields are the base's plus exactly their own token, with no
cross-contamination. -/
theorem derive_no_mutation_independent (m : Mem) (lp : Nat) (ctx1 ctx2 : Ctx)
    (a b : GoVal)
    (hlp : lp < m.zlHeap.length)
    (hzp : m.zlHeap.getD lp 0 < m.zapHeap.length)
    (h1 : ctxValue ctx1 CtxKey.requestIdKeyTy = some a)
    (h2 : ctxValue ctx2 CtxKey.requestIdKeyTy = some b) :
    ((C m lp ctx1).1.zlHeap.getD lp 0 = m.zlHeap.getD lp 0) ∧
    ((C m lp ctx1).1.zapHeap.getD (m.zlHeap.getD lp 0) ⟨[]⟩ =
       m.zapHeap.getD (m.zlHeap.getD lp 0) ⟨[]⟩) ∧
    (loggerFields (C m lp ctx1).1 lp = loggerFields m lp) ∧
    (loggerFields (C (C m lp ctx1).1 lp ctx2).1 (C m lp ctx1).2 =
       loggerFields m lp ++ [(RequestId, a)]) ∧
    (loggerFields (C (C m lp ctx1).1 lp ctx2).1 (C (C m lp ctx1).1 lp ctx2).2 =
       loggerFields m lp ++ [(RequestId, b)]) ∧
    ((RequestId, b) ∉ loggerFields m lp → a ≠ b →
       (RequestId, b) ∉ loggerFields (C (C m lp ctx1).1 lp ctx2).1 (C m lp ctx1).2) := by
  have hnew := C_some_zl_new m lp ctx1 a h1
  have hd1 : loggerFields (C (C m lp ctx1).1 lp ctx2).1 (C m lp ctx1).2 =
      loggerFields m lp ++ [(RequestId, a)] := by
    rw [C_snd m lp ctx1]
    rw [loggerFields_C_frame (C m lp ctx1).1 lp ctx2 m.zlHeap.length
          (by rw [hnew.2.1]; omega)
          (by rw [hnew.1, hnew.2.2]; omega)]
    have := lf_C_some m lp ctx1 a h1
    rw [C_snd m lp ctx1] at this
    exact this
  refine ⟨C_zl_getD_lt m lp ctx1 lp 0 hlp,
          C_zap_getD_lt m lp ctx1 _ _ hzp,
          loggerFields_C_frame m lp ctx1 lp hlp hzp,
          hd1, ?_, ?_⟩
  · have hlf2 := lf_C_some (C m lp ctx1).1 lp ctx2 b h2
    rw [hlf2]
    rw [loggerFields_C_frame m lp ctx1 lp hlp hzp]
  · intro hnb hab hmem
    rw [hd1] at hmem
    rcases List.mem_append.mp hmem with hμ | hμ
    · exact hnb hμ
    · simp only [List.mem_singleton, Prod.mk.injEq] at hμ
      exact hab (hμ.2.symm)

/-- C6 witness: after a second derivation with token "req-2", the first
derived logger still carries exactly its own token "req-1". -/
theorem derive_no_mutation_independent_witness :
    loggerFields (C (C memW 0 ctxTypedW).1 0 ctxTypedW2).1 (C memW 0 ctxTypedW).2 =
      [(RequestId, .str "req-1")] := by
  have h := (derive_no_mutation_independent memW 0 ctxTypedW ctxTypedW2
    (.str "req-1") (.str "req-2") (by decide) (by decide) (by decide)
    (by decide)).2.2.2.1
  rw [h]
  decide

/-- C7: each XxxfWithContext equals rendering the format template with the
positional arguments to a plain string and then invoking the structured call
of the same level, with that string as message and no key/value fields, on the
context-bound logger C(ctx) — the structured path is never bypassed. -/
theorem formatf_delegates_structured :
    ∀ (m : Mem) (stdp : Nat) (ctx : Ctx) (format : String) (args : List GoVal),
      DebugfWithContext m stdp ctx format args =
        specFormattedCall .DebugLevel m stdp ctx format args ∧
      InfofWithContext m stdp ctx format args =
        specFormattedCall .InfoLevel m stdp ctx format args ∧
      WarnfWithContext m stdp ctx format args =
        specFormattedCall .WarnLevel m stdp ctx format args ∧
      ErrorfWithContext m stdp ctx format args =
        specFormattedCall .ErrorLevel m stdp ctx format args ∧
      PanicfWithContext m stdp ctx format args =
        specFormattedCall .PanicLevel m stdp ctx format args ∧
      FatalfWithContext m stdp ctx format args =
        specFormattedCall .FatalLevel m stdp ctx format args := by
  intro m stdp ctx format args
  exact ⟨rfl, rfl, rfl, rfl, rfl, rfl⟩

/-- C8: NewLogger always enables caller capture; the skip count is 1 by
default (in particular for nil Options, whose CallerSkip is the zero value)
and any positive configured CallerSkip is used instead. -/
theorem caller_skip_default_override :
    (∀ (fs : Fs) (conf : LoggerConf),
       NewLogger none fs = .ok conf → conf.callerSkip = 1) ∧
    (∀ (opts : Options) (fs : Fs) (conf : LoggerConf),
       NewLogger (some opts) fs = .ok conf →
       conf.callerEnabled = true ∧
       (opts.CallerSkip > 0 → conf.callerSkip = opts.CallerSkip) ∧
       (¬ opts.CallerSkip > 0 → conf.callerSkip = 1)) := by
  have key : ∀ (optsIn : Option Options) (fs : Fs) (conf : LoggerConf),
      NewLogger optsIn fs = .ok conf →
      conf.callerEnabled = true ∧
      conf.callerSkip = (if (optsIn.getD NewOptions).CallerSkip > 0
                         then (optsIn.getD NewOptions).CallerSkip else 1) := by
    intro optsIn fs conf hok
    simp only [NewLogger] at hok
    cases hbc : buildFileCores fs (optsIn.getD NewOptions)
        ((levelUnmarshalText (optsIn.getD NewOptions).Level).getD .InfoLevel)
        (optsIn.getD NewOptions).OutputPaths with
    | panicked e => rw [hbc] at hok; exact absurd hok (by simp)
    | ok fileCores =>
      rw [hbc] at hok
      simp only [GoResult.ok.injEq] at hok
      subst hok
      exact ⟨rfl, rfl⟩
  constructor
  · intro fs conf hok
    have h := (key none fs conf hok).2
    simpa [NewOptions] using h
  · intro opts fs conf hok
    have h := key (some opts) fs conf hok
    refine ⟨h.1, ?_, ?_⟩
    · intro hpos
      rw [h.2]
      simp [hpos]
    · intro hneg
      rw [h.2]
      simp [hneg]

/-- C8 witness: with CallerSkip set to 3 the constructed logger skips 3
frames. -/
theorem caller_skip_default_override_witness :
    (witConf .InfoLevel 3).callerSkip = 3 :=
  ((caller_skip_default_override).2 c8opts fsOkW (witConf .InfoLevel 3)
    (by decide)).2.1 (by decide)

/-- C9: Options values agreeing on everything but DisableCaller,
DisableStacktrace, Format, LocalTime and Compress construct identical loggers;
every rotation sink is built with local time on and compression off; the
encoder factory returns a JSON encoder for every Options value; and every
constructed logger has caller capture enabled and JSON encoders on all file
cores. -/
theorem cosmetic_fields_no_effect :
    (∀ (o1 o2 : Options) (fs : Fs), cosmeticAgree o1 o2 →
       NewLogger (some o1) fs = NewLogger (some o2) fs) ∧
    (∀ (f : String) (ms mb ma : Int) (lc : LumberjackConf),
       sinkFile (getLogWriter f ms mb ma) = some lc →
       lc.localTime = true ∧ lc.compress = false) ∧
    (∀ (o : Options), ∃ cfg, getEncoder o = .jsonEnc cfg) ∧
    (∀ (optsIn : Option Options) (fs : Fs) (conf : LoggerConf),
       NewLogger optsIn fs = .ok conf →
       conf.callerEnabled = true ∧
       ∀ c ∈ conf.cores, isFileCore c = true → ∃ cfg, c.encoder = .jsonEnc cfg) := by
  refine ⟨?_, ?_, ?_, ?_⟩
  · intro o1 o2 fs hag
    rcases hag with ⟨hl, hop, hms, hmb, hma, hcs⟩
    exact NewLogger_congr fs o1 o2 hop hms hmb hma hcs (by rw [hl])
  · intro f ms mb ma lc h
    simp only [getLogWriter, sinkFile, Option.some.injEq] at h
    subst h
    exact ⟨rfl, rfl⟩
  · intro o
    exact ⟨_, rfl⟩
  · intro optsIn fs conf hok
    simp only [NewLogger] at hok
    cases hbc : buildFileCores fs (optsIn.getD NewOptions)
        ((levelUnmarshalText (optsIn.getD NewOptions).Level).getD .InfoLevel)
        (optsIn.getD NewOptions).OutputPaths with
    | panicked e => rw [hbc] at hok; exact absurd hok (by simp)
    | ok fileCores =>
      rw [hbc] at hok
      simp only [GoResult.ok.injEq] at hok
      subst hok
      refine ⟨rfl, ?_⟩
      intro c hc hfc
      simp only at hc
      rcases List.mem_append.mp hc with hμ | hμ
      · rcases buildFileCores_mem fs _ _ _ _ hbc c hμ with ⟨he, _, _⟩
        rw [he]
        exact ⟨_, rfl⟩
      · simp only [List.mem_singleton] at hμ
        subst hμ
        simp [isFileCore, sinkFile] at hfc

/-- C9 witness: flipping DisableCaller, DisableStacktrace, Format, LocalTime
and Compress leaves the constructed logger identical. -/
theorem cosmetic_fields_no_effect_witness :
    NewLogger (some NewOptions) fsOkW = NewLogger (some c9opts2) fsOkW :=
  (cosmetic_fields_no_effect).1 NewOptions c9opts2 fsOkW
    ⟨rfl, rfl, rfl, rfl, rfl, rfl⟩

/-- C10: getLogWriter replaces an empty filename by "./app.log" and each
zero rotation limit by its default (104857600, 30 backups, 7 days), passes
every nonzero argument through unchanged, and always sets local time on and
compression off. -/
theorem log_writer_defaults_passthrough (f : String) (ms mb ma : Int) :
    sinkFile (getLogWriter f ms mb ma) = some
      { filename := if f.length = 0 then "./app.log" else f
        maxSize := if ms = 0 then 104857600 else ms
        maxAge := if ma = 0 then 7 else ma
        maxBackups := if mb = 0 then 30 else mb
        localTime := true
        compress := false } := by
  have hpath : cleanPath (dirPath logFilePath) ++ "/" ++ basePath logFilePath =
      "./app.log" := by decide
  have hsz : (100 * 1024 * 1024 : Int) = 104857600 := by norm_num
  simp only [getLogWriter, sinkFile, hpath, hsz]

end Log
